import Mathlib

/-!
Verification of the byte patcher in src/backend/fix_invoice.py.

The program reads a file as raw bytes, performs one call to
bytes.replace with two fixed literal byte patterns, writes the result
back, and prints a confirmation message.  Bytes are modelled as List Nat
(each element a byte value below 256); the Python builtin
bytes.replace with a nonempty search pattern is a single left-to-right
scan that substitutes non-overlapping occurrences.  The scan is
implemented structurally with a fuel argument bounded by the length of
the buffer so the kernel can evaluate it on concrete inputs.
-/

/-- One step of the replace scan.  On a byte-for-byte match of tgt at the
head of the buffer, emit rep and continue past the matched region; on a
non-match, emit the head byte and advance by one.  The fuel argument
decreases by one per step and is initialised to the buffer length, which
always suffices because each step consumes at least one byte. -/
def replaceGo (tgt rep : List Nat) : Nat → List Nat → List Nat
  | 0, s => s
  | _ + 1, [] => []
  | fuel + 1, a :: rest =>
    if tgt.isPrefixOf (a :: rest) then
      rep ++ replaceGo tgt rep fuel (List.drop (tgt.length - 1) rest)
    else
      a :: replaceGo tgt rep fuel rest

/-- Embedding of the Python builtin bytes.replace for a nonempty search
pattern: replace every non-overlapping occurrence of tgt with rep,
scanning left to right. -/
def bytesReplace (tgt rep s : List Nat) : List Nat :=
  replaceGo tgt rep s.length s

/-- Count of non-overlapping occurrences of tgt, scanning left to right,
with the same fuel discipline as replaceGo. -/
def countOccGo (tgt : List Nat) : Nat → List Nat → Nat
  | 0, _ => 0
  | _ + 1, [] => 0
  | fuel + 1, a :: rest =>
    if tgt.isPrefixOf (a :: rest) then
      countOccGo tgt fuel (List.drop (tgt.length - 1) rest) + 1
    else
      countOccGo tgt fuel rest

/-- Number of non-overlapping occurrences of tgt in s. -/
def countOcc (tgt s : List Nat) : Nat :=
  countOccGo tgt s.length s

/-- Boolean test: does pat occur as a contiguous segment of the buffer. -/
def containsSeg (pat : List Nat) : List Nat → Bool
  | [] => pat.isEmpty
  | a :: rest => pat.isPrefixOf (a :: rest) || containsSeg pat rest

/-- The corrupted byte pair, source line 6: the two bytes C2 AC. -/
def corrupted : List Nat := [194, 172]

/-- The search pattern, source line 8: the bytes of ".bind(" followed by
the corrupted pair followed by the bytes of "es)". -/
def target : List Nat :=
  [46, 98, 105, 110, 100, 40] ++ corrupted ++ [101, 115, 41]

/-- The replacement pattern, source line 10.  The bytes literal in the
source contains the corrupted pair C2 AC between the open parenthesis
and the letter e, not the ampersand byte 38 that the adjacent comment
announces. -/
def replacement : List Nat :=
  [46, 98, 105, 110, 100, 40, 194, 172, 101, 115, 41]

/-- The replacement the spec describes: the bytes of ".bind(&es)", with
the ampersand byte 38. -/
def intendedReplacement : List Nat :=
  [46, 98, 105, 110, 100, 40, 38, 101, 115, 41]

/-- The in-memory transform of source line 12:
content.replace(target, replacement). -/
def fixTransform (content : List Nat) : List Nat :=
  bytesReplace target replacement content

/-- Accumulator form of the reference algorithm of spec section 4.1: keep
a buffer of emitted segments; on match append the replacement and skip
the matched region, on non-match append the current byte and advance by
one; when the scan ends the accumulated concatenation is the result. -/
def scanGo (tgt rep : List Nat) : Nat → List Nat → List Nat → List Nat
  | 0, acc, s => acc ++ s
  | _ + 1, acc, [] => acc
  | fuel + 1, acc, a :: rest =>
    if tgt.isPrefixOf (a :: rest) then
      scanGo tgt rep fuel (acc ++ rep) (List.drop (tgt.length - 1) rest)
    else
      scanGo tgt rep fuel (acc ++ [a]) rest

/-- The reference algorithm of spec section 4.1, written as a scan that
concatenates emitted segments. -/
def specScanReplace (tgt rep s : List Nat) : List Nat :=
  scanGo tgt rep s.length [] s

/-- A byte sequence matched as a prefix can be split off: the pattern
followed by dropping its length recovers the buffer. -/
lemma isPrefixOf_append_drop :
    ∀ (p s : List Nat), p.isPrefixOf s = true → p ++ List.drop p.length s = s := by
  intro p
  induction p with
  | nil => intro s _; simp
  | cons a p ih =>
    intro s hp
    cases s with
    | nil => simp [List.isPrefixOf] at hp
    | cons b rest =>
      simp only [List.isPrefixOf, Bool.and_eq_true, beq_iff_eq] at hp
      obtain ⟨hab, hps⟩ := hp
      subst hab
      simp only [List.length_cons, List.drop_succ_cons, List.cons_append,
        List.cons.injEq, true_and]
      exact ih rest hps

/-- When the search and replacement patterns coincide and the pattern is
nonempty, the replace scan is the identity at every fuel. -/
lemma replaceGo_self (tgt : List Nat) (h : tgt ≠ []) :
    ∀ (fuel : Nat) (s : List Nat), replaceGo tgt tgt fuel s = s := by
  intro fuel
  induction fuel with
  | zero => intro s; rfl
  | succ n ih =>
    intro s
    cases s with
    | nil => rfl
    | cons a rest =>
      by_cases hp : tgt.isPrefixOf (a :: rest) = true
      · have hsplit := isPrefixOf_append_drop tgt (a :: rest) hp
        cases tgt with
        | nil => exact absurd rfl h
        | cons t0 ts =>
          simp only [replaceGo, hp, if_true, ih]
          simpa [List.length_cons, List.drop_succ_cons] using hsplit
      · simp only [replaceGo, hp, if_false, ih]
        simp at hp
        simp [hp, ih]

/-- The search and the replacement literal of the source are the same
byte sequence. -/
lemma target_eq_replacement : target = replacement := by
  decide

/-- The transform of source line 12 is the identity on every buffer,
because its two patterns are equal byte sequences. -/
lemma fixTransform_id : ∀ content : List Nat, fixTransform content = content := by
  intro content
  have h : fixTransform content = bytesReplace target target content := by
    rw [fixTransform, target_eq_replacement]
  rw [h, bytesReplace]
  exact replaceGo_self target (by decide) content.length content

/-- The accumulator scan equals the accumulator prepended to the direct
recursive replace, at every fuel. -/
lemma scanGo_append (tgt rep : List Nat) :
    ∀ (fuel : Nat) (acc s : List Nat),
      scanGo tgt rep fuel acc s = acc ++ replaceGo tgt rep fuel s := by
  intro fuel
  induction fuel with
  | zero => intro acc s; rfl
  | succ n ih =>
    intro acc s
    cases s with
    | nil => simp [scanGo, replaceGo]
    | cons a rest =>
      by_cases hp : tgt.isPrefixOf (a :: rest) = true
      · simp [scanGo, replaceGo, hp, ih, List.append_assoc]
      · simp at hp
        simp [scanGo, replaceGo, hp, ih]

/-- Model of the file-system state the script touches: the one target
file (whether the path exists, whether the process may read it, whether
the process may write it, and its byte content) together with the bytes
printed to standard output so far. -/
structure FS where
  present : Bool
  readable : Bool
  writable : Bool
  data : List Nat
  stdout : List String

/-- The one error kind of the spec: opening the path fails because it
does not exist, is not readable, or is not writable. -/
inductive FileAccessError where
  | notFound
  | notReadable
  | notWritable
  deriving DecidableEq

/-- Embedding of the whole script as explicit state passing: open for
reading (lines 1 and 2) fails when the path is absent or unreadable;
the content is then transformed in memory (line 12); open for writing
(lines 14 and 15) fails when the path is unwritable; on success the file
is overwritten with the transformed bytes and the confirmation message
of line 17 is printed.  The returned pair is the file-system state after
the run and the error, if any; on an error nothing has been written, so
the state is returned unchanged, mirroring that every read in the source
happens before any write. -/
def runFix (fs : FS) : FS × Option FileAccessError :=
  if fs.present = false then (fs, some FileAccessError.notFound)
  else if fs.readable = false then (fs, some FileAccessError.notReadable)
  else
    let patched := fixTransform fs.data
    if fs.writable = false then (fs, some FileAccessError.notWritable)
    else ({ fs with data := patched, stdout := fs.stdout ++ ["Fixed"] }, none)

/-- Events on the two file handles of the script. -/
inductive HEvent where
  | openRead
  | closeRead
  | openWrite
  | closeWrite
  deriving DecidableEq

/-- The handle events of a run, in order.  Each handle is managed by a
with block in the source, so a handle that is acquired is released when
the block exits, on success and on error alike; a failing open acquires
nothing.  The read block closes before the write block opens. -/
def handleTrace (fs : FS) : List HEvent :=
  if fs.present = false ∨ fs.readable = false then []
  else if fs.writable = false then [HEvent.openRead, HEvent.closeRead]
  else [HEvent.openRead, HEvent.closeRead, HEvent.openWrite, HEvent.closeWrite]

/-- The scenario input of claim C1: the bytes of "call " then the search
pattern then the bytes of " more". -/
def c1Input : List Nat := [99, 97, 108, 108, 32] ++ target ++ [32, 109, 111, 114, 101]

/-- The output claim C1 expects: the bytes of "call " then ".bind(&es)"
then the bytes of " more". -/
def c1Expected : List Nat :=
  [99, 97, 108, 108, 32] ++ intendedReplacement ++ [32, 109, 111, 114, 101]

/-- Claim C1: on the scenario input holding exactly one occurrence of
the search pattern, the code returns the input unchanged and not the
output the claim describes, because the replacement literal of line 10
repeats the corrupted pair instead of the ampersand. -/
theorem c1_scenario_fails_on_code :
    fixTransform c1Input = c1Input ∧ fixTransform c1Input ≠ c1Expected := by
  decide

/-- Claim C2: the search pattern and the replacement literal of the
source are byte-for-byte equal, and the in-memory transform of line 12
is the identity on every input byte sequence. -/
theorem c2_transform_is_identity :
    target = replacement ∧ ∀ content : List Nat, fixTransform content = content :=
  ⟨target_eq_replacement, fixTransform_id⟩

/-- Claim C3: on an input that is exactly one occurrence of the search
pattern, the output of the code still holds one occurrence of the search
pattern, not zero as the claim requires. -/
theorem c3_search_pattern_survives :
    fixTransform target = target ∧ countOcc target (fixTransform target) = 1 := by
  decide

/-- Claim C4: on content holding the replacement pattern the transform
returns the content unchanged.  In the source the replacement pattern
equals the search pattern, so the stated side condition that the search
pattern be absent cannot be met by any buffer; the transform is the
identity even without it. -/
theorem c4_idempotent_on_patched :
    ∀ content : List Nat, containsSeg replacement content = true →
      fixTransform content = content := by
  intro content _
  exact fixTransform_id content

/-- Witness for claim C4 at the buffer that is the replacement pattern
itself. -/
theorem c4_idempotent_on_patched_witness :
    fixTransform replacement = replacement :=
  c4_idempotent_on_patched replacement (by decide)

/-- Claim C5: on content holding neither the search pattern nor the
replacement pattern the transform returns the content unchanged. -/
theorem c5_noop_when_absent :
    ∀ content : List Nat, containsSeg target content = false →
      containsSeg replacement content = false →
      fixTransform content = content := by
  intro content _ _
  exact fixTransform_id content

/-- Witness for claim C5 at the two-byte buffer 104, 105. -/
theorem c5_noop_when_absent_witness :
    fixTransform [104, 105] = [104, 105] :=
  c5_noop_when_absent [104, 105] (by decide) (by decide)

/-- Claim C6: the output length equals the input length plus the
occurrence count times the difference of the pattern lengths.  In the
source both patterns have length eleven, so the difference is zero and
the output is the input. -/
theorem c6_length_equation :
    ∀ content : List Nat,
      ((fixTransform content).length : Int) =
        (content.length : Int) +
          (countOcc target content : Int) *
            ((replacement.length : Int) - (target.length : Int)) := by
  intro content
  rw [fixTransform_id]
  have h : ((replacement.length : Int) - (target.length : Int)) = 0 := by decide
  rw [h, mul_zero, add_zero]

/-- Claim C7: the bytes.replace call of line 12 agrees with the
reference algorithm of spec section 4.1, the left-to-right scan that
emits the replacement over each non-overlapping match, emits the current
byte otherwise, and concatenates the emitted segments. -/
theorem c7_replace_matches_spec_scan :
    ∀ content : List Nat,
      fixTransform content = specScanReplace target replacement content := by
  intro content
  rw [fixTransform, bytesReplace, specScanReplace, scanGo_append]
  rfl

/-- Claim C8: the run fails exactly when the path is absent, unreadable
or unwritable, and the file content after the run is transformed on
success and untouched on failure. -/
theorem c8_error_characterization :
    ∀ fs : FS,
      ((runFix fs).2 = none ↔
        (fs.present = true ∧ fs.readable = true ∧ fs.writable = true)) ∧
      (runFix fs).1.data =
        (if fs.present && fs.readable && fs.writable then fixTransform fs.data
         else fs.data) := by
  intro fs
  rcases fs with ⟨p, r, w, d, o⟩
  cases p <;> cases r <;> cases w <;> simp [runFix]

/-- Claim C9: whenever the path is present, readable and writable the
run succeeds and appends exactly one confirmation message to standard
output, with no condition on the content, so a zero-occurrence run is a
success as well. -/
theorem c9_prints_confirmation :
    ∀ fs : FS, fs.present = true → fs.readable = true → fs.writable = true →
      (runFix fs).2 = none ∧ (runFix fs).1.stdout = fs.stdout ++ ["Fixed"] := by
  intro fs hp hr hw
  rcases fs with ⟨p, r, w, d, o⟩
  cases hp
  cases hr
  cases hw
  simp [runFix]

/-- Witness for claim C9 at an accessible file with empty content, a
buffer with zero occurrences of the search pattern. -/
theorem c9_prints_confirmation_witness :
    (runFix (FS.mk true true true [] [])).2 = none ∧
      (runFix (FS.mk true true true [] [])).1.stdout =
        ([] : List String) ++ ["Fixed"] :=
  c9_prints_confirmation (FS.mk true true true [] []) rfl rfl rfl

/-- Claim C10: in every run, the handle trace balances: the read handle
is closed as often as it is opened and so is the write handle, on the
success path and on every error path. -/
theorem c10_handles_balanced :
    ∀ fs : FS,
      (handleTrace fs).count HEvent.openRead =
          (handleTrace fs).count HEvent.closeRead ∧
        (handleTrace fs).count HEvent.openWrite =
          (handleTrace fs).count HEvent.closeWrite := by
  intro fs
  rcases fs with ⟨p, r, w, d, o⟩
  cases p <;> cases r <;> cases w <;> simp [handleTrace]
